import Mathlib

/-!
Verification of the copier batch run/resume/interrupt state machine.

This file gives a shallow embedding of the components of the repository:

* `StateManager` — `src/state_manager.py` (last-completed index and the
  interrupted flag, with the resume rules).
* `ItemSpec`, `InterruptPoint`, `runFrom`, `runAllEvents` — the background
  batch loop of `RsyncRunner.run_all` / `RsyncRunner._execute_single` in
  `src/rsync_runner.py`, modelled as a pure function from the per-item
  environment (does the source exist on disk, what the subprocess prints and
  how it exits, at which check site an interrupt request is first observed)
  to the sequence of queue events the runner emits.
* `process_log_queue` — the queue-draining cycle of
  `RsyncController.process_log_queue` in `src/rsync_controller.py`.
* `AppState` — `src/src/copier/state_manager.py` (status enum, inputs,
  resume state, derived predicates, setters).
* `build_command` — `RsyncCommandBuilder.build_command` in
  `src/src/copier/rsync/command.py`.
* `handle_rsync_finished` — `AppCoordinator._handle_rsync_finished` in
  `src/src/copier/coordinator.py`, with the attribute read it performs.
-/

namespace Copier

/-- Log levels used by the runner on the queue (the first field of the
`(log, level, msg)` tuples of `rsync_runner.py`). -/
inductive LogLevel
  | info
  | warning
  | success
  | progress
  deriving DecidableEq

/-- Queue events produced by `RsyncRunner` (see the docstring of
`RsyncRunner.__init__`): the tagged tuples `(log, level, message)`,
`(progress, i, total)`, `(error, message)` and `(finished, success)`. -/
inductive Event
  | log (level : LogLevel) (msg : String)
  | progress (index : Nat) (total : Nat)
  | error (msg : String)
  | finished (success : Bool)
  deriving DecidableEq

/-- The resume record of `src/state_manager.py` (`StateManager`): the index of
the last successfully completed item and the interrupted flag.  The same pair
of fields backs the `resume_state` dict of `AppState` in
`src/src/copier/state_manager.py`. -/
structure StateManager where
  last_completed_index : Int := -1
  was_interrupted : Bool := false
  deriving DecidableEq

namespace StateManager

/-- `StateManager.reset_for_new_run`: clear both fields. -/
def reset_for_new_run (_ : StateManager) : StateManager :=
  { last_completed_index := -1, was_interrupted := false }

/-- `StateManager.mark_interrupted`: one-way transition of the flag. -/
def mark_interrupted (s : StateManager) : StateManager :=
  { s with was_interrupted := true }

/-- `StateManager.update_completion_index`: accept only a strictly larger
index (monotonic). -/
def update_completion_index (s : StateManager) (index : Int) : StateManager :=
  if index > s.last_completed_index then
    { s with last_completed_index := index }
  else s

/-- `StateManager.can_resume`: interrupted and `0 <= last_completed_index <
total_items - 1` (Python chained comparison). -/
def can_resume (s : StateManager) (total_items : Int) : Bool :=
  s.was_interrupted &&
    (decide (0 ≤ s.last_completed_index) &&
     decide (s.last_completed_index < total_items - 1))

/-- `StateManager.get_resume_start_index`: `last_completed_index + 1` when the
flag is set and the index is at least `-1`, else `0`. -/
def get_resume_start_index (s : StateManager) : Int :=
  if s.was_interrupted && decide (s.last_completed_index ≥ -1) then
    s.last_completed_index + 1
  else 0

end StateManager

/-- Environment of one batch item, as `run_all` observes it: either the
source path does not exist on disk (`os.path.exists` is false), or the
subprocess is launched, prints `lines` on merged stdout/stderr and exits with
`code`. -/
inductive ItemSpec
  | missing
  | exits (lines : List String) (code : Nat)
  deriving DecidableEq

/-- True when the item is skipped for non-existence or exits with code 0 —
the two outcomes that let `run_all` advance to the next item. -/
def itemOk : ItemSpec → Bool
  | .missing => true
  | .exits _ code => code == 0

/-- True on the `missing` constructor. -/
def ItemSpec.isMissingB : ItemSpec → Bool
  | .missing => true
  | .exits _ _ => false

/-- The site at which a user interrupt request (which sets
`self.interrupted`) is first observed by the runner:
either at the top of the loop iteration for item `i` (line 137 of
`rsync_runner.py`), or while item `i` is executing — observed at the per-line
check once `afterLines` output lines have been handled, or at the post-wait
check when all lines were already handled (lines 82 and 101). -/
inductive InterruptPoint
  | beforeItem (i : Nat)
  | duringItem (i : Nat) (afterLines : Nat)
  deriving DecidableEq

/-- When the interrupt is observed inside `_execute_single` for item `i`,
the number of lines handled before the flag was set. -/
def isDuringAt (intr : Option InterruptPoint) (i : Nat) : Option Nat :=
  match intr with
  | some (.duringItem j k) => if j = i then some k else none
  | _ => none

/-- Character-list comparison used for the `to-check=` substring test. -/
def startsWithChars : List Char → List Char → Bool
  | [], _ => true
  | _ :: _, [] => false
  | a :: as, b :: bs => a = b && startsWithChars as bs

/-- Substring test over character lists (Python `in` on strings). -/
def hasSub (pat : List Char) : List Char → Bool
  | [] => startsWithChars pat []
  | b :: bs => startsWithChars pat (b :: bs) || hasSub pat bs

/-- Classification of one stripped output line: a line containing a percent
sign and not `to-check=` is sent as a progress-level log, anything else as
info (lines 91-94 of `rsync_runner.py`). -/
def classifyLine (line : String) : LogLevel :=
  if line.contains '%' && !(hasSub "to-check=".toList line.toList) then
    LogLevel.progress
  else LogLevel.info

/-- Events for one output line: the line is stripped, empty lines are
dropped, others become one log event at the classified level. -/
def lineEvents (line : String) : List Event :=
  if line.trim = "" then []
  else [Event.log (classifyLine line.trim) line.trim]

/-- Events for a list of output lines. -/
def emitLines (lines : List String) : List Event :=
  lines.flatMap lineEvents

/-- `RsyncRunner._execute_single` for an existing source at index `i` of
`total`: the info header, the per-line events, then either the interrupt
warning (mid-loop or post-wait), the success log, or the failure error.  The
boolean is the return value of `_execute_single`. -/
def execSingle (total i : Nat) (lines : List String) (code : Nat)
    (intr : Option InterruptPoint) : List Event × Bool :=
  let header := Event.log LogLevel.info s!"Running command ({i + 1}/{total})."
  match isDuringAt intr i with
  | some k =>
      if k < lines.length then
        (header :: (emitLines (lines.take k) ++
          [Event.log LogLevel.warning
            s!"Rsync process ({i + 1}/{total}) interrupted by user."]), false)
      else
        (header :: (emitLines lines ++
          [Event.log LogLevel.warning
            s!"Rsync process ({i + 1}/{total}) finished after interrupt signal."]),
         false)
  | none =>
      if code == 0 then
        (header :: (emitLines lines ++
          [Event.log LogLevel.success
            s!"Command ({i + 1}/{total}) completed successfully."]), true)
      else
        (header :: (emitLines lines ++
          [Event.error s!"Command ({i + 1}/{total}) failed with return code {code}."]),
         false)

/-- Message emitted for a source path that does not exist on disk (line 147
of `rsync_runner.py`; note the tuple emitted there is an `error` event, not a
warning-level log). -/
def missingMsg : String := "Source path does not exist. Skipping."

/-- The loop body of `run_all._run_in_thread` over the remaining items, where
`i` is the index of the head item: check the interrupted flag at the loop
top, emit `progress(i, total)` before starting the item, skip missing sources
with an error event, run existing ones, stop on failure or interrupt. -/
def runFrom (total : Nat) (intr : Option InterruptPoint) :
    Nat → List ItemSpec → List Event × Bool
  | _, [] => ([], true)
  | i, spec :: rest =>
      if intr = some (.beforeItem i) then
        ([Event.log LogLevel.warning "Rsync run cancelled due to interrupt."], false)
      else
        match spec with
        | .missing =>
            let r := runFrom total intr (i + 1) rest
            (Event.progress i total :: Event.error missingMsg :: r.1, r.2)
        | .exits lines code =>
            let e := execSingle total i lines code intr
            if e.2 then
              let r := runFrom total intr (i + 1) rest
              (Event.progress i total :: (e.1 ++ r.1), r.2)
            else
              let tail :=
                if (isDuringAt intr i).isSome then
                  [Event.log LogLevel.warning
                    "Stopping further execution due to interrupt."]
                else
                  [Event.error "Execution failed. Stopping."]
              (Event.progress i total :: (e.1 ++ tail), false)

/-- Events of one started batch run (`run_all` for `sources` of the given
item environments, from `start`): the loop events followed by exactly the one
`finished(overall_success)` put in the `finally` block. -/
def runAllCore (items : List ItemSpec) (start : Nat)
    (intr : Option InterruptPoint) : List Event × Bool :=
  let r := runFrom items.length intr start (items.drop start)
  (r.1 ++ [Event.finished r.2], r.2)

/-- The event trace of a started batch run. -/
def runAllEvents (items : List ItemSpec) (start : Nat)
    (intr : Option InterruptPoint) : List Event :=
  (runAllCore items start intr).1

/-- The `overall_success` value of a started batch run. -/
def runAllSuccess (items : List ItemSpec) (start : Nat)
    (intr : Option InterruptPoint) : Bool :=
  (runAllCore items start intr).2

/-- Closed-form condition for an interrupt request to be observed by the run
(and so to abort it): the targeted iteration must be inside the range, every
earlier item of the range must have let the loop advance, and an interrupt
during item `i` requires the subprocess of item `i` to have been launched
(the source exists). -/
def effectiveInterrupt (items : List ItemSpec) (start : Nat) :
    Option InterruptPoint → Bool
  | none => false
  | some (.beforeItem i) =>
      decide (start ≤ i) && decide (i < items.length) &&
        ((items.drop start).take (i - start)).all itemOk
  | some (.duringItem i _) =>
      decide (start ≤ i) && decide (i < items.length) &&
        ((items.drop start).take (i - start)).all itemOk &&
        !(items.getD i ItemSpec.missing).isMissingB

/-- The `finished` branch of `RsyncController.process_log_queue`
(`src/rsync_controller.py`, lines 307-338): mark the state manager
interrupted when the run failed and the runner flag was set, then either keep
the state (interrupted), reset it (full success), or keep it (error).
`runnerInterrupted` is `self.runner.interrupted` read before the runner
reference is cleared. -/
def finishStep (sm : StateManager) (runnerInterrupted success : Bool) :
    StateManager :=
  let sm := if !success && runnerInterrupted then sm.mark_interrupted else sm
  if sm.was_interrupted then sm
  else if success then sm.reset_for_new_run
  else sm

/-- One drain cycle of `RsyncController.process_log_queue` over the queued
events: log events (progress level dropped) and error events only forward
text, `progress(i, _)` feeds `i` to `update_completion_index`, and a
`finished` event is terminal — the remaining queued events are not
processed. -/
def process_log_queue (sm : StateManager) (runnerInterrupted : Bool) :
    List Event → StateManager
  | [] => sm
  | e :: rest =>
      match e with
      | .finished s => finishStep sm runnerInterrupted s
      | .log _ _ => process_log_queue sm runnerInterrupted rest
      | .progress i _ =>
          process_log_queue (sm.update_completion_index (Int.ofNat i))
            runnerInterrupted rest
      | .error _ => process_log_queue sm runnerInterrupted rest

/-- `RsyncController.start_or_resume_rsync` (lines 237-261), reduced to its
effect on the state manager and the chosen start index: the resume decision
and the start index are computed first, a fresh run then resets the state,
and the interrupted flag is cleared explicitly before the runner starts. -/
def StateManager.start_run (sm : StateManager) (total : Nat) :
    StateManager × Nat :=
  let is_resuming := sm.can_resume (Int.ofNat total)
  let start_index := sm.get_resume_start_index
  let sm := if is_resuming then sm else sm.reset_for_new_run
  let sm := { sm with was_interrupted := false }
  (sm, start_index.toNat)

/-- The mutable flags of a `RsyncRunner` instance that outlive one call:
`self.interrupted` and whether the background thread is alive
(`is_running`).  `current_process` is `None` whenever the runner is not
running. -/
structure RsyncRunner where
  interrupted : Bool
  running : Bool
  deriving DecidableEq

/-- `RsyncRunner.interrupt` called while no run is active (`current_process`
is `None`): it puts the warning, sets the flag, and logs that there is no
active process. -/
def RsyncRunner.interrupt (r : RsyncRunner) : RsyncRunner × List Event :=
  ({ r with interrupted := true },
   [Event.log LogLevel.warning
      "Interrupt signal received. Attempting to stop rsync...",
    Event.log LogLevel.info
      "No active rsync process to interrupt or already finished."])

/-- `RsyncRunner.run_all`: reject with a warning when already running,
otherwise clear the interrupted flag, start the background thread and return
its event trace (the info log about the started thread is put by the caller
thread). -/
def RsyncRunner.run_all (r : RsyncRunner) (items : List ItemSpec)
    (start : Nat) (intr : Option InterruptPoint) : RsyncRunner × List Event :=
  if r.running then
    (r, [Event.log LogLevel.warning "Rsync process is already running."])
  else
    ({ interrupted := false, running := true },
     Event.log LogLevel.info "Rsync process started in background thread." ::
       runAllEvents items start intr)

/-- The status enum of `src/src/copier/state_manager.py` (`AppStatus`). -/
inductive AppStatus
  | idle
  | checkingRsync
  | rsyncNotFound
  | ready
  | running
  | interrupting
  | interrupted
  | finishedSuccess
  | finishedError
  deriving DecidableEq

/-- The state fields of `AppState` (`src/src/copier/state_manager.py`) that
the verified claims read: status, rsync availability, sources, destination,
options (a dict of named booleans, kept as an association list), the resume
record, and the last error. -/
structure AppState where
  status : AppStatus
  rsync_available : Bool
  sources : List String
  destination : Option String
  options : List (String × Bool)
  resume_state : StateManager
  last_error : Option String
  deriving DecidableEq

/-- Python truthiness of the optional destination string: `None` and the
empty string are falsy. -/
def destTruthy : Option String → Bool
  | none => false
  | some s => !(s = "")

/-- Python dict equality for the option mappings: both carry the same keys
with the same values. -/
def dictEq (a b : List (String × Bool)) : Bool :=
  a.all (fun p => List.lookup p.1 b == some p.2) &&
    b.all (fun p => List.lookup p.1 a == some p.2)

/-- Lexicographic comparison of character lists (Python string order by
code point). -/
def charsLe : List Char → List Char → Bool
  | [], _ => true
  | _ :: _, [] => false
  | a :: as, b :: bs => if a = b then charsLe as bs else decide (a < b)

/-- Python `<=` on strings. -/
def strLe (a b : String) : Bool := charsLe a.toList b.toList

/-- Insertion of a string into a sorted list (ascending). -/
def insertSorted (x : String) : List String → List String
  | [] => [x]
  | y :: ys => if strLe x y then x :: y :: ys else y :: insertSorted x ys

/-- Insertion sort for strings, modelling Python `sorted`. -/
def sortStrings : List String → List String
  | [] => []
  | x :: xs => insertSorted x (sortStrings xs)

/-- Deduplication keeping the first occurrence of each element, modelling
`list(dict.fromkeys(...))`: the head is kept and every later copy of it is
removed, recursively. -/
def dedupKeepFirst : List String → List String
  | [] => []
  | x :: xs => x :: (dedupKeepFirst xs).filter (fun y => !(y = x))

/-- `sorted(list(set(sources)))` of `AppState.set_sources`. -/
def dedupSortStrings (l : List String) : List String :=
  sortStrings (dedupKeepFirst l)

namespace AppState

/-- `AppState.set_status`: change only on a different value; moving to a
status other than `FINISHED_ERROR` or `RSYNC_NOT_FOUND` clears the last
error. -/
def set_status (st : AppState) (s : AppStatus) : AppState :=
  if st.status = s then st
  else
    let st := { st with status := s }
    if s = AppStatus.finishedError ∨ s = AppStatus.rsyncNotFound then st
    else { st with last_error := none }

/-- `AppState.reset_resume_state`. -/
def reset_resume_state (st : AppState) : AppState :=
  { st with resume_state := { last_completed_index := -1, was_interrupted := false } }

/-- `AppState.set_sources`: the input is deduplicated and sorted; on an
actual change the sources are replaced and the resume state reset; the
boolean reports whether `state_changed` is emitted. -/
def set_sources (st : AppState) (sources : List String) : AppState × Bool :=
  let new_sources := dedupSortStrings sources
  if st.sources = new_sources then (st, false)
  else
    ({ st with
        sources := new_sources,
        resume_state := { last_completed_index := -1, was_interrupted := false } },
     true)

/-- `AppState.set_destination`: on an actual change the destination is
replaced and the resume state reset; the boolean reports whether
`state_changed` is emitted. -/
def set_destination (st : AppState) (destination : Option String) :
    AppState × Bool :=
  if st.destination = destination then (st, false)
  else
    ({ st with
        destination := destination,
        resume_state := { last_completed_index := -1, was_interrupted := false } },
     true)

/-- `AppState.set_options`: the guard is Python dict equality; on an actual
change the options are replaced and the resume state reset; the boolean
reports whether `state_changed` is emitted. -/
def set_options (st : AppState) (options : List (String × Bool)) :
    AppState × Bool :=
  if dictEq st.options options then (st, false)
  else
    ({ st with
        options := options,
        resume_state := { last_completed_index := -1, was_interrupted := false } },
     true)

/-- `AppState.can_resume` (no argument — it reads `len(self._sources)`). -/
def can_resume (st : AppState) : Bool :=
  st.resume_state.was_interrupted &&
    (decide (0 ≤ st.resume_state.last_completed_index) &&
     decide (st.resume_state.last_completed_index <
       (Int.ofNat st.sources.length) - 1))

/-- `AppState.get_resume_start_index`. -/
def get_resume_start_index (st : AppState) : Int :=
  if st.can_resume then st.resume_state.last_completed_index + 1 else 0

/-- `AppState.can_run_or_resume`: rsync available, truthy sources and
destination, and a status in the allowed list. -/
def can_run_or_resume (st : AppState) : Bool :=
  st.rsync_available && !st.sources.isEmpty && destTruthy st.destination &&
    [AppStatus.ready, AppStatus.finishedSuccess, AppStatus.finishedError,
      AppStatus.interrupted].contains st.status

end AppState

/-- Lookup of one option with the Python `dict.get(key, False)` default. -/
def getOpt (options : List (String × Bool)) (key : String) : Bool :=
  (List.lookup key options).getD false

/-- `RsyncCommandBuilder.build_command` (`src/src/copier/rsync/command.py`):
the flags are appended in program order — archive alone, or the base flags
plus the explicit permission flags plus the auxiliary time flags — followed
by verbose, compress, human-readable, one of the two progress flags, delete
and dry-run, and the result is deduplicated keeping first occurrences
(`list(dict.fromkeys(command))`). -/
def build_command (options : List (String × Bool)) : List String :=
  dedupKeepFirst
    (["rsync"]
      ++ (if getOpt options "archive" then ["-a"]
          else ["-rltD"]
            ++ (if getOpt options "preserve_permissions" then ["-pgo"] else [])
            ++ ["--atimes", "--crtimes", "--omit-dir-times"])
      ++ (if getOpt options "verbose" then ["-v"] else [])
      ++ (if getOpt options "compress" then ["-z"] else [])
      ++ (if getOpt options "human" then ["-h"] else [])
      ++ (if getOpt options "progress" then ["--progress"]
          else ["--info=progress2"])
      ++ (if getOpt options "delete" then ["--delete"] else [])
      ++ (if getOpt options "dry_run" then ["-n"] else []))

/-- Diagnostic of the attribute read `self.app_state.was_interrupted` in
`AppCoordinator._handle_rsync_finished` (`src/src/copier/coordinator.py`,
line 246): `AppState` defines no attribute or property named
`was_interrupted` (the flag lives inside the `resume_state` dict), so the
read raises `AttributeError`. -/
def attrErrMsg : String :=
  "AttributeError: AppState object has no attribute was_interrupted"

/-- The attribute read performed by the coordinator, as the code performs
it: it fails for every `AppState` value. -/
def AppState.attr_was_interrupted (_ : AppState) : Except String Bool :=
  Except.error attrErrMsg

/-- `AppCoordinator._handle_rsync_finished`: on success set
`FINISHED_SUCCESS` and reset the resume state; on failure branch on
`self.app_state.was_interrupted` to choose `INTERRUPTED` (resume state kept)
or `FINISHED_ERROR` (resume state kept). -/
def handle_rsync_finished (st : AppState) (success : Bool) :
    Except String AppState :=
  if success then
    Except.ok ((st.set_status AppStatus.finishedSuccess).reset_resume_state)
  else
    match st.attr_was_interrupted with
    | Except.error e => Except.error e
    | Except.ok w =>
        if w then Except.ok (st.set_status AppStatus.interrupted)
        else Except.ok (st.set_status AppStatus.finishedError)

/-- The argument of the `rsync_finished` signal emitted by
`RsyncProcessManager.process_log_queue` (`src/src/copier/rsync/manager.py`,
line 220): `overall_success and not was_interrupted_on_finish`. -/
def manager_finished_signal (overall_success runnerInterrupted : Bool) : Bool :=
  overall_success && !runnerInterrupted

/-- Events that one drain cycle handles without touching the state manager
and without stopping: the log and error kinds. -/
def drainNeutral : Event → Bool
  | .log _ _ => true
  | .error _ => true
  | .progress _ _ => false
  | .finished _ => false

/-- The index carried by a progress event. -/
def progressOf : Event → Option Nat
  | .progress i _ => some i
  | _ => none

/-- The indices of the progress events of a trace, in order — the items the
run attempted. -/
def progressIndices (evs : List Event) : List Nat :=
  evs.filterMap progressOf

/-- True on a `finished` event. -/
def isFinishedEvt : Event → Bool
  | .finished _ => true
  | _ => false

/-- True on a warning-level log event. -/
def isWarnLogEvt : Event → Bool
  | .log LogLevel.warning _ => true
  | _ => false

/-- True on the error event reporting a missing source. -/
def isMissingErrorEvt : Event → Bool
  | .error m => m = missingMsg
  | _ => false

/-- Suffix form of `effectiveInterrupt`, over the remaining items `l` whose
head carries index `i` — the shape the loop recursion works with. -/
def effSuffix (intr : Option InterruptPoint) (i : Nat) (l : List ItemSpec) :
    Bool :=
  match intr with
  | none => false
  | some (.beforeItem j) =>
      decide (i ≤ j) && decide (j < i + l.length) && (l.take (j - i)).all itemOk
  | some (.duringItem j _) =>
      decide (i ≤ j) && decide (j < i + l.length) &&
        (l.take (j - i)).all itemOk &&
        !(l.getD (j - i) ItemSpec.missing).isMissingB



/-! Helper lemmas about the event classifications. -/

theorem drainNeutral_not_finished {e : Event} (h : drainNeutral e = true) :
    isFinishedEvt e = false := by
  cases e <;> simp_all [drainNeutral, isFinishedEvt]

theorem drainNeutral_no_progress {e : Event} (h : drainNeutral e = true) :
    progressOf e = none := by
  cases e <;> simp_all [drainNeutral, progressOf]

theorem lineEvents_neutral (line : String) :
    ∀ e ∈ lineEvents line, drainNeutral e = true := by
  intro e he
  unfold lineEvents at he
  split at he
  · simp at he
  · simp at he
    subst he
    rfl

theorem emitLines_neutral (lines : List String) :
    ∀ e ∈ emitLines lines, drainNeutral e = true := by
  intro e he
  simp only [emitLines, List.mem_flatMap] at he
  obtain ⟨l, _, hl⟩ := he
  exact lineEvents_neutral l e hl

theorem execSingle_neutral (total i : Nat) (lines : List String) (code : Nat)
    (intr : Option InterruptPoint) :
    ∀ e ∈ (execSingle total i lines code intr).1, drainNeutral e = true := by
  intro e he
  unfold execSingle at he
  split at he <;> split at he <;>
    simp only [List.mem_cons, List.mem_append, List.mem_singleton,
      List.not_mem_nil, or_false] at he <;>
    rcases he with rfl | he | rfl <;>
    first
      | rfl
      | exact emitLines_neutral _ e he

theorem runFrom_cons_before {intr : Option InterruptPoint} {i : Nat}
    (total : Nat) (spec : ItemSpec) (rest : List ItemSpec)
    (h : intr = some (.beforeItem i)) :
    runFrom total intr i (spec :: rest) =
      ([Event.log LogLevel.warning "Rsync run cancelled due to interrupt."], false) := by
  rw [runFrom.eq_def]
  simp [h]

theorem runFrom_cons_missing {intr : Option InterruptPoint} {i : Nat}
    (total : Nat) (rest : List ItemSpec)
    (h : ¬intr = some (.beforeItem i)) :
    runFrom total intr i (ItemSpec.missing :: rest) =
      (Event.progress i total :: Event.error missingMsg ::
        (runFrom total intr (i + 1) rest).1,
       (runFrom total intr (i + 1) rest).2) := by
  rw [runFrom.eq_def]
  simp [h]

theorem runFrom_cons_exits_ok {intr : Option InterruptPoint} {i : Nat}
    {lines : List String} {code : Nat}
    (total : Nat) (rest : List ItemSpec)
    (h : ¬intr = some (.beforeItem i))
    (h2 : (execSingle total i lines code intr).2 = true) :
    runFrom total intr i (ItemSpec.exits lines code :: rest) =
      (Event.progress i total ::
        ((execSingle total i lines code intr).1 ++
          (runFrom total intr (i + 1) rest).1),
       (runFrom total intr (i + 1) rest).2) := by
  rw [runFrom.eq_def]
  simp [h, h2]

theorem runFrom_cons_exits_stop {intr : Option InterruptPoint} {i : Nat}
    {lines : List String} {code : Nat}
    (total : Nat) (rest : List ItemSpec)
    (h : ¬intr = some (.beforeItem i))
    (h2 : (execSingle total i lines code intr).2 = false) :
    runFrom total intr i (ItemSpec.exits lines code :: rest) =
      (Event.progress i total ::
        ((execSingle total i lines code intr).1 ++
          (if (isDuringAt intr i).isSome then
            [Event.log LogLevel.warning "Stopping further execution due to interrupt."]
          else
            [Event.error "Execution failed. Stopping."])),
       false) := by
  rw [runFrom.eq_def]
  simp [h, h2]

theorem runFrom_no_finished (total : Nat) (intr : Option InterruptPoint) :
    ∀ (l : List ItemSpec) (i : Nat) (e : Event),
      e ∈ (runFrom total intr i l).1 → isFinishedEvt e = false := by
  intro l
  induction l with
  | nil => intro i e he; simp [runFrom] at he
  | cons spec rest ih =>
      intro i e he
      by_cases hb : intr = some (.beforeItem i)
      · rw [runFrom_cons_before total spec rest hb] at he
        simp only [List.mem_singleton] at he
        subst he; rfl
      · cases spec with
        | missing =>
            rw [runFrom_cons_missing total rest hb] at he
            simp only [List.mem_cons] at he
            rcases he with rfl | rfl | he
            · rfl
            · rfl
            · exact ih (i + 1) e he
        | exits lines code =>
            cases h2 : (execSingle total i lines code intr).2 with
            | true =>
                rw [runFrom_cons_exits_ok total rest hb h2] at he
                simp only [List.mem_cons, List.mem_append] at he
                rcases he with rfl | he | he
                · rfl
                · exact drainNeutral_not_finished (execSingle_neutral total i lines code intr e he)
                · exact ih (i + 1) e he
            | false =>
                rw [runFrom_cons_exits_stop total rest hb h2] at he
                simp only [List.mem_cons, List.mem_append] at he
                rcases he with rfl | he | he
                · rfl
                · exact drainNeutral_not_finished (execSingle_neutral total i lines code intr e he)
                · split at he <;> simp only [List.mem_singleton] at he <;> subst he <;> rfl

theorem runAll_filter_finished (items : List ItemSpec) (start : Nat)
    (intr : Option InterruptPoint) :
    (runAllEvents items start intr).filter isFinishedEvt =
      [Event.finished (runAllSuccess items start intr)] := by
  have hnil : (runFrom items.length intr start (items.drop start)).1.filter isFinishedEvt = [] := by
    rw [List.filter_eq_nil_iff]
    intro e he
    simp [runFrom_no_finished items.length intr (items.drop start) start e he]
  simp [runAllEvents, runAllCore, runAllSuccess, List.filter_append, hnil, isFinishedEvt]

theorem process_append_neutral (sm : StateManager) (rI : Bool)
    (a b : List Event) (h : ∀ e ∈ a, drainNeutral e = true) :
    process_log_queue sm rI (a ++ b) = process_log_queue sm rI b := by
  induction a with
  | nil => rfl
  | cons e a iha =>
      have he := h e (List.mem_cons_self e a)
      have ha : ∀ x ∈ a, drainNeutral x = true := fun x hx => h x (List.mem_cons_of_mem e hx)
      cases e with
      | log lv m => simpa [process_log_queue] using iha ha
      | error m => simpa [process_log_queue] using iha ha
      | progress i t => simp [drainNeutral] at he
      | finished s => simp [drainNeutral] at he

theorem progressIndices_append (a b : List Event) :
    progressIndices (a ++ b) = progressIndices a ++ progressIndices b := by
  simp [progressIndices, List.filterMap_append]

theorem progressIndices_neutral (a : List Event)
    (h : ∀ e ∈ a, drainNeutral e = true) : progressIndices a = [] := by
  rw [progressIndices, List.filterMap_eq_nil_iff]
  intro e he
  exact drainNeutral_no_progress (h e he)

theorem isDuringAt_eq_some (intr : Option InterruptPoint) (i k : Nat)
    (h : isDuringAt intr i = some k) :
    intr = some (InterruptPoint.duringItem i k) := by
  cases intr with
  | none => simp [isDuringAt] at h
  | some p =>
      cases p with
      | beforeItem j => simp [isDuringAt] at h
      | duringItem j k2 =>
          simp only [isDuringAt] at h
          split at h
          · next hji =>
              injection h with h2
              subst hji
              subst h2
              rfl
          · exact absurd h (by simp)

theorem execSingle_snd_none (total i : Nat) (lines : List String) (code : Nat)
    (intr : Option InterruptPoint) (h : isDuringAt intr i = none) :
    (execSingle total i lines code intr).2 = (code == 0) := by
  simp only [execSingle, h]
  cases hc : (code == 0) <;> simp [hc]

theorem execSingle_snd_some (total i : Nat) (lines : List String) (code : Nat)
    (intr : Option InterruptPoint) (k : Nat) (h : isDuringAt intr i = some k) :
    (execSingle total i lines code intr).2 = false := by
  simp only [execSingle, h]
  split <;> rfl

theorem effSuffix_nil (intr : Option InterruptPoint) (i : Nat) :
    effSuffix intr i [] = false := by
  cases intr with
  | none => rfl
  | some p =>
      cases p with
      | beforeItem j =>
          by_cases h1 : i ≤ j <;> by_cases h2 : j < i + ([] : List ItemSpec).length <;>
            simp_all [effSuffix] <;> omega
      | duringItem j k =>
          by_cases h1 : i ≤ j <;> by_cases h2 : j < i + ([] : List ItemSpec).length <;>
            simp_all [effSuffix] <;> omega

theorem effSuffix_cons_head_before (i : Nat) (rest : List ItemSpec)
    (spec : ItemSpec) :
    effSuffix (some (InterruptPoint.beforeItem i)) i (spec :: rest) = true := by
  have h2 : i < i + (spec :: rest).length := by simp
  simp [effSuffix, h2]

theorem effSuffix_cons_head_during (i k : Nat) (rest : List ItemSpec)
    (lines : List String) (code : Nat) :
    effSuffix (some (InterruptPoint.duringItem i k)) i
      (ItemSpec.exits lines code :: rest) = true := by
  have h2 : i < i + (ItemSpec.exits lines code :: rest).length := by simp
  simp [effSuffix, h2, ItemSpec.isMissingB]

theorem effSuffix_cons_shift (intr : Option InterruptPoint) (i : Nat)
    (x : ItemSpec) (rest : List ItemSpec)
    (hb : ¬intr = some (InterruptPoint.beforeItem i))
    (hok : itemOk x = true)
    (hmiss : isDuringAt intr i = none ∨ x.isMissingB = true) :
    effSuffix intr i (x :: rest) = effSuffix intr (i + 1) rest := by
  cases intr with
  | none => rfl
  | some p =>
      cases p with
      | beforeItem j =>
          have hji : ¬j = i := fun h => hb (by rw [h])
          by_cases h1 : i ≤ j
          · have h1s : i + 1 ≤ j := by omega
            have hsub : j - i = (j - (i + 1)) + 1 := by omega
            have hlen : i + (rest.length + 1) = i + 1 + rest.length := by omega
            simp [effSuffix, hsub, List.take_succ_cons, hok, hlen, h1, h1s]
          · have h1s : ¬i + 1 ≤ j := by omega
            simp [effSuffix, h1, h1s]
      | duringItem j k =>
          by_cases hji : j = i
          · subst hji
            rcases hmiss with hd | hm
            · exfalso
              simp [isDuringAt] at hd
            · have h2 : ¬j + 1 ≤ j := by omega
              simp [effSuffix, hm, Nat.sub_self, List.getD_cons_zero, h2]
          · by_cases h1 : i ≤ j
            · have h1s : i + 1 ≤ j := by omega
              have hsub : j - i = (j - (i + 1)) + 1 := by omega
              have hlen : i + (rest.length + 1) = i + 1 + rest.length := by omega
              simp [effSuffix, hsub, List.take_succ_cons, hok, hlen, h1, h1s,
                List.getD_cons_succ]
            · have h1s : ¬i + 1 ≤ j := by omega
              simp [effSuffix, h1, h1s]

theorem runFrom_snd (total : Nat) (intr : Option InterruptPoint) :
    ∀ (l : List ItemSpec) (i : Nat),
      (runFrom total intr i l).2 = (l.all itemOk && !effSuffix intr i l) := by
  intro l
  induction l with
  | nil => intro i; simp [runFrom, effSuffix_nil]
  | cons spec rest ih =>
      intro i
      by_cases hb : intr = some (.beforeItem i)
      · subst hb
        rw [runFrom_cons_before total spec rest rfl]
        simp [effSuffix_cons_head_before]
      · cases spec with
        | missing =>
            rw [runFrom_cons_missing total rest hb, ih (i + 1),
              effSuffix_cons_shift intr i ItemSpec.missing rest hb rfl (Or.inr rfl)]
            simp [itemOk]
        | exits lines code =>
            cases hd : isDuringAt intr i with
            | some k =>
                have h2 := execSingle_snd_some total i lines code intr k hd
                rw [runFrom_cons_exits_stop total rest hb h2]
                have heq := isDuringAt_eq_some intr i k hd
                subst heq
                simp [effSuffix_cons_head_during]
            | none =>
                have h2 := execSingle_snd_none total i lines code intr hd
                cases hc : (code == 0) with
                | true =>
                    rw [runFrom_cons_exits_ok total rest hb (by rw [h2, hc]), ih (i + 1),
                      effSuffix_cons_shift intr i (ItemSpec.exits lines code) rest hb
                        (by simp [itemOk, hc]) (Or.inl hd)]
                    simp [itemOk, hc]
                | false =>
                    rw [runFrom_cons_exits_stop total rest hb (by rw [h2, hc])]
                    simp [itemOk, hc]

theorem getD_drop (l : List ItemSpec) (n m : Nat) (d : ItemSpec) :
    (l.drop n).getD m d = l.getD (n + m) d := by
  simp [List.getD, List.getElem?_drop]

theorem effSuffix_drop (items : List ItemSpec) (start : Nat)
    (intr : Option InterruptPoint) :
    effSuffix intr start (items.drop start) = effectiveInterrupt items start intr := by
  cases intr with
  | none => rfl
  | some p =>
      cases p with
      | beforeItem j =>
          by_cases h1 : start ≤ j
          · by_cases h2 : j < items.length
            · have h3 : j < start + (items.length - start) := by omega
              simp [effSuffix, effectiveInterrupt, List.length_drop, h1, h2, h3]
            · have h3 : ¬j < start + (items.length - start) := by omega
              simp [effSuffix, effectiveInterrupt, List.length_drop, h1, h2, h3]
          · simp [effSuffix, effectiveInterrupt, h1]
      | duringItem j k =>
          by_cases h1 : start ≤ j
          · by_cases h2 : j < items.length
            · have h3 : j < start + (items.length - start) := by omega
              have h4 : (items.drop start).getD (j - start) ItemSpec.missing =
                  items.getD j ItemSpec.missing := by
                rw [getD_drop]
                congr 1
                omega
              simp only [effSuffix, effectiveInterrupt, List.length_drop, h4]
              simp [h1, h2, h3]
            · have h3 : ¬j < start + (items.length - start) := by omega
              simp [effSuffix, effectiveInterrupt, List.length_drop, h1, h2, h3]
          · simp [effSuffix, effectiveInterrupt, h1]

theorem runAllSuccess_eq (items : List ItemSpec) (start : Nat)
    (intr : Option InterruptPoint) :
    runAllSuccess items start intr =
      ((items.drop start).all itemOk && !effectiveInterrupt items start intr) := by
  rw [runAllSuccess, runAllCore]
  rw [runFrom_snd items.length intr (items.drop start) start, effSuffix_drop]

theorem mem_dedupKeepFirst (l : List String) (a : String)
    (h : a ∈ dedupKeepFirst l) : a ∈ l := by
  induction l with
  | nil => simp [dedupKeepFirst] at h
  | cons x xs ih =>
      rw [dedupKeepFirst] at h
      rcases List.mem_cons.mp h with h | h
      · exact h ▸ List.mem_cons_self x xs
      · exact List.mem_cons_of_mem x (ih (List.mem_of_mem_filter h))

theorem nodup_dedupKeepFirst (l : List String) : (dedupKeepFirst l).Nodup := by
  induction l with
  | nil => simp [dedupKeepFirst]
  | cons x xs ih =>
      rw [dedupKeepFirst]
      refine List.nodup_cons.mpr ⟨?_, ih.filter _⟩
      intro hmem
      have hx := List.of_mem_filter hmem
      simp at hx

/-- C6: for every resume state and every total item count, `can_resume`
holds exactly when the run was interrupted and the last completed index lies
in `[0, totalItems - 1)`; in particular it is false whenever the interrupted
flag is clear. -/
theorem claim_C6_can_resume_iff (s : StateManager) (t : Int) :
    s.can_resume t = true ↔
      (s.was_interrupted = true ∧ 0 ≤ s.last_completed_index ∧
        s.last_completed_index < t - 1) := by
  simp [StateManager.can_resume, and_assoc]

/-- C3 (code bug): when the `finished` notification arrives with the runner
interrupted flag set, the manager emits `rsync_finished` with
`overall_success and not was_interrupted_on_finish` (hence `false`), and the
coordinator handler then reads the nonexistent attribute
`AppState.was_interrupted`, raising `AttributeError` instead of setting the
status to `Interrupted`. -/
theorem claim_C3_finished_interrupted_raises (st : AppState)
    (overall runnerInterrupted : Bool) (h : runnerInterrupted = true) :
    handle_rsync_finished st (manager_finished_signal overall runnerInterrupted) =
      Except.error attrErrMsg := by
  subst h
  simp [manager_finished_signal, handle_rsync_finished, AppState.attr_was_interrupted]

/-- Witness for C3 at a concrete state. -/
theorem claim_C3_finished_interrupted_raises_witness :
    handle_rsync_finished
      { status := AppStatus.running, rsync_available := true,
        sources := ["a"], destination := some "d", options := [],
        resume_state := { last_completed_index := 0, was_interrupted := false },
        last_error := none }
      (manager_finished_signal false true) = Except.error attrErrMsg :=
  claim_C3_finished_interrupted_raises _ false true rfl

/-- C9: starting a run clears the interruption flag, so an `interrupt()`
received while nothing is running has no effect on a later `run_all`: the
launched runner state and the emitted events coincide with those of a run
with no prior interrupt, and the launched run starts with the flag clear. -/
theorem claim_C9_run_all_clears_interrupt (r : RsyncRunner)
    (items : List ItemSpec) (start : Nat) (intr : Option InterruptPoint)
    (h : r.running = false) :
    (r.interrupt.1).run_all items start intr = r.run_all items start intr ∧
      ((r.run_all items start intr).1).interrupted = false := by
  obtain ⟨ri, rr⟩ := r
  cases h
  simp [RsyncRunner.interrupt, RsyncRunner.run_all]

/-- Witness for C9: an idle runner whose flag is already set. -/
theorem claim_C9_run_all_clears_interrupt_witness :
    (RsyncRunner.run_all (RsyncRunner.interrupt
        { interrupted := true, running := false }).1 [] 0 none =
      RsyncRunner.run_all { interrupted := true, running := false } [] 0 none) ∧
      ((RsyncRunner.run_all { interrupted := true, running := false } [] 0 none).1).interrupted
        = false :=
  claim_C9_run_all_clears_interrupt { interrupted := true, running := false } [] 0 none rfl

/-- C10: each input setter is a complete no-op — same state, no
`state_changed` emission, resume state untouched — when the incoming value
equals the stored one (for sources, after deduplication and sorting; for
options, under dict equality). -/
theorem claim_C10_setters_noop (st : AppState) (v : List String)
    (d : Option String) (o : List (String × Bool))
    (hs : dedupSortStrings v = st.sources)
    (hd : d = st.destination)
    (ho : dictEq st.options o = true) :
    st.set_sources v = (st, false) ∧ st.set_destination d = (st, false) ∧
      st.set_options o = (st, false) := by
  refine ⟨?_, ?_, ?_⟩
  · simp [AppState.set_sources, hs]
  · simp [AppState.set_destination, hd]
  · simp [AppState.set_options, ho]

/-- Witness for C10 at a concrete state and equal inputs. -/
theorem claim_C10_setters_noop_witness :
    AppState.set_sources
        { status := AppStatus.ready, rsync_available := true,
          sources := ["a", "b"], destination := some "d",
          options := [("archive", true)],
          resume_state := { last_completed_index := 1, was_interrupted := true },
          last_error := none } ["b", "a", "a"] =
      ({ status := AppStatus.ready, rsync_available := true,
         sources := ["a", "b"], destination := some "d",
         options := [("archive", true)],
         resume_state := { last_completed_index := 1, was_interrupted := true },
         last_error := none }, false) ∧
    AppState.set_destination
        { status := AppStatus.ready, rsync_available := true,
          sources := ["a", "b"], destination := some "d",
          options := [("archive", true)],
          resume_state := { last_completed_index := 1, was_interrupted := true },
          last_error := none } (some "d") =
      ({ status := AppStatus.ready, rsync_available := true,
         sources := ["a", "b"], destination := some "d",
         options := [("archive", true)],
         resume_state := { last_completed_index := 1, was_interrupted := true },
         last_error := none }, false) ∧
    AppState.set_options
        { status := AppStatus.ready, rsync_available := true,
          sources := ["a", "b"], destination := some "d",
          options := [("archive", true)],
          resume_state := { last_completed_index := 1, was_interrupted := true },
          last_error := none } [("archive", true)] =
      ({ status := AppStatus.ready, rsync_available := true,
         sources := ["a", "b"], destination := some "d",
         options := [("archive", true)],
         resume_state := { last_completed_index := 1, was_interrupted := true },
         last_error := none }, false) :=
  claim_C10_setters_noop _ ["b", "a", "a"] (some "d") [("archive", true)]
    (by decide) rfl (by decide)

/-- C5: `can_run_or_resume` agrees with the specified predicate — tool
available, destination truthy, status in the allowed set, and sources
non-empty or a resume possible (with an empty source list a resume is never
possible, since `can_resume` compares against `len(sources) - 1`). -/
theorem claim_C5_can_run_or_resume (st : AppState) :
    st.can_run_or_resume =
      (st.rsync_available && destTruthy st.destination &&
        [AppStatus.ready, AppStatus.finishedSuccess, AppStatus.finishedError,
          AppStatus.interrupted].contains st.status &&
        (!st.sources.isEmpty || st.can_resume)) := by
  obtain ⟨stat, avail, srcs, dest, opts, ⟨lci, wi⟩, le⟩ := st
  cases srcs with
  | nil =>
      by_cases h1 : (0 : Int) ≤ lci
      · have h2 : ¬lci < (-1 : Int) := by omega
        simp [AppState.can_run_or_resume, AppState.can_resume, h1, h2]
      · simp [AppState.can_run_or_resume, AppState.can_resume, h1]
  | cons a l =>
      cases avail with
      | false => simp [AppState.can_run_or_resume]
      | true =>
          cases hdt : destTruthy dest with
          | false => simp [AppState.can_run_or_resume, hdt]
          | true =>
              simp [AppState.can_run_or_resume, hdt]

/-- C4: every started batch run emits exactly one `finished` event, carrying
`overall_success`; and `overall_success` is true exactly when every item from
the start index onward succeeded or was skipped for non-existence and no
interrupt was observed by the run — hence false on any attempted item
failure or on an observed interruption. -/
theorem claim_C4_exactly_one_finished (items : List ItemSpec) (start : Nat)
    (intr : Option InterruptPoint) :
    (runAllEvents items start intr).filter isFinishedEvt =
      [Event.finished (runAllSuccess items start intr)] ∧
    runAllSuccess items start intr =
      ((items.drop start).all itemOk && !effectiveInterrupt items start intr) :=
  ⟨runAll_filter_finished items start intr, runAllSuccess_eq items start intr⟩

/-- C8: the command builder reads only the named option keys (two mappings
agreeing on every key build the same command), its output carries no
duplicate flag (first occurrences are kept), and with `archive` set the
explicit permission/group/owner flags `-pgo` never appear. -/
theorem claim_C8_build_command (o o2 : List (String × Bool))
    (hagree : ∀ k, getOpt o k = getOpt o2 k) :
    build_command o = build_command o2 ∧ (build_command o).Nodup ∧
      (getOpt o "archive" = true → "-pgo" ∉ build_command o) := by
  refine ⟨?_, ?_, ?_⟩
  · simp only [build_command, hagree]
  · exact nodup_dedupKeepFirst _
  · intro harch hmem
    simp only [build_command] at hmem
    have h2 := mem_dedupKeepFirst _ _ hmem
    rw [harch] at h2
    revert h2
    cases hv : getOpt o "verbose" <;> cases hz : getOpt o "compress" <;>
      cases hh : getOpt o "human" <;> cases hp : getOpt o "progress" <;>
      cases hdl : getOpt o "delete" <;> cases hn : getOpt o "dry_run" <;>
      simp

theorem process_cons_progress (sm : StateManager) (rI : Bool) (i t : Nat)
    (rest : List Event) :
    process_log_queue sm rI (Event.progress i t :: rest) =
      process_log_queue (sm.update_completion_index (Int.ofNat i)) rI rest := rfl

theorem process_cons_log (sm : StateManager) (rI : Bool) (lv : LogLevel)
    (m : String) (rest : List Event) :
    process_log_queue sm rI (Event.log lv m :: rest) =
      process_log_queue sm rI rest := rfl

theorem process_cons_error (sm : StateManager) (rI : Bool) (m : String)
    (rest : List Event) :
    process_log_queue sm rI (Event.error m :: rest) =
      process_log_queue sm rI rest := rfl

theorem process_cons_finished (sm : StateManager) (rI s : Bool)
    (rest : List Event) :
    process_log_queue sm rI (Event.finished s :: rest) = finishStep sm rI s := rfl

theorem process_execSingle_block (sm : StateManager) (rI : Bool)
    (total i : Nat) (lines : List String) (code : Nat)
    (intr : Option InterruptPoint) (rest : List Event) :
    process_log_queue sm rI ((execSingle total i lines code intr).1 ++ rest) =
      process_log_queue sm rI rest :=
  process_append_neutral sm rI _ rest (execSingle_neutral total i lines code intr)

theorem filterMap_progressOf_execSingle (total i : Nat) (lines : List String)
    (code : Nat) (intr : Option InterruptPoint) :
    List.filterMap progressOf (execSingle total i lines code intr).1 = [] :=
  progressIndices_neutral _ (execSingle_neutral total i lines code intr)

theorem filterMap_progressOf_runFrom_single (total i : Nat) (x : ItemSpec) :
    List.filterMap progressOf (runFrom total none i [x]).1 = [i] := by
  have hb : ¬(none : Option InterruptPoint) = some (InterruptPoint.beforeItem i) := by
    simp
  cases x with
  | missing =>
      rw [runFrom_cons_missing total [] hb]
      simp [progressOf, runFrom]
  | exits lines code =>
      cases h2 : (execSingle total i lines code none).2 with
      | true =>
          rw [runFrom_cons_exits_ok total [] hb h2]
          simp [List.filterMap_cons, progressOf, List.filterMap_append,
            filterMap_progressOf_execSingle, runFrom]
      | false =>
          rw [runFrom_cons_exits_stop total [] hb h2]
          simp [List.filterMap_cons, progressOf, List.filterMap_append,
            filterMap_progressOf_execSingle, isDuringAt]

/-- C1: with three sources, the first two completing successfully and the
interrupt observed at the top of iteration 2 (after item 1 completes, before
`progress(2)` is emitted), draining the run leaves the resume state at index
1 with the interrupted flag set, so `get_resume_start_index` returns 2; the
subsequent resume run starts at index 2 and its progress events — the items
it processes — are exactly `[2]`. -/
theorem claim_C1_interrupt_resume (l0 l1 : List String) (x2 : ItemSpec) :
    (process_log_queue
        (StateManager.start_run
          { last_completed_index := -1, was_interrupted := false } 3).1 true
        (runAllEvents [ItemSpec.exits l0 0, ItemSpec.exits l1 0, x2]
          (StateManager.start_run
            { last_completed_index := -1, was_interrupted := false } 3).2
          (some (InterruptPoint.beforeItem 2)))).get_resume_start_index = 2 ∧
    (process_log_queue
        (StateManager.start_run
          { last_completed_index := -1, was_interrupted := false } 3).1 true
        (runAllEvents [ItemSpec.exits l0 0, ItemSpec.exits l1 0, x2] 0
          (some (InterruptPoint.beforeItem 2)))).can_resume 3 = true ∧
    (StateManager.start_run
      (process_log_queue
        (StateManager.start_run
          { last_completed_index := -1, was_interrupted := false } 3).1 true
        (runAllEvents [ItemSpec.exits l0 0, ItemSpec.exits l1 0, x2] 0
          (some (InterruptPoint.beforeItem 2)))) 3).2 = 2 ∧
    List.filterMap progressOf
      (runAllEvents [ItemSpec.exits l0 0, ItemSpec.exits l1 0, x2] 2 none) = [2] := by
  have hfirst : StateManager.start_run
      { last_completed_index := -1, was_interrupted := false } 3 =
      ({ last_completed_index := -1, was_interrupted := false }, 0) := rfl
  have h0 : (execSingle 3 0 l0 0 (some (InterruptPoint.beforeItem 2))).2 = true := by
    rw [execSingle_snd_none 3 0 l0 0 (some (InterruptPoint.beforeItem 2)) rfl]
    rfl
  have h1 : (execSingle 3 1 l1 0 (some (InterruptPoint.beforeItem 2))).2 = true := by
    rw [execSingle_snd_none 3 1 l1 0 (some (InterruptPoint.beforeItem 2)) rfl]
    rfl
  have htr : runAllEvents [ItemSpec.exits l0 0, ItemSpec.exits l1 0, x2] 0
      (some (InterruptPoint.beforeItem 2)) =
      Event.progress 0 3 ::
        ((execSingle 3 0 l0 0 (some (InterruptPoint.beforeItem 2))).1 ++
          (Event.progress 1 3 ::
            ((execSingle 3 1 l1 0 (some (InterruptPoint.beforeItem 2))).1 ++
              [Event.log LogLevel.warning "Rsync run cancelled due to interrupt."]))) ++
        [Event.finished false] := by
    rw [show runAllEvents [ItemSpec.exits l0 0, ItemSpec.exits l1 0, x2] 0
          (some (InterruptPoint.beforeItem 2)) =
        (runFrom 3 (some (InterruptPoint.beforeItem 2)) 0
          [ItemSpec.exits l0 0, ItemSpec.exits l1 0, x2]).1 ++
          [Event.finished (runFrom 3 (some (InterruptPoint.beforeItem 2)) 0
            [ItemSpec.exits l0 0, ItemSpec.exits l1 0, x2]).2] from rfl]
    rw [runFrom_cons_exits_ok 3 [ItemSpec.exits l1 0, x2] (by decide) h0]
    rw [runFrom_cons_exits_ok 3 [x2] (by decide) h1]
    rw [runFrom_cons_before 3 x2 [] rfl]
  have hdrain : process_log_queue
      { last_completed_index := -1, was_interrupted := false } true
      (runAllEvents [ItemSpec.exits l0 0, ItemSpec.exits l1 0, x2] 0
        (some (InterruptPoint.beforeItem 2))) =
      { last_completed_index := 1, was_interrupted := true } := by
    rw [htr]
    rw [List.cons_append, process_cons_progress, List.append_assoc,
      process_execSingle_block, List.cons_append, process_cons_progress,
      List.append_assoc, process_execSingle_block, List.singleton_append,
      process_cons_log, process_cons_finished]
    rfl
  refine ⟨?_, ?_, ?_, ?_⟩
  · rw [hfirst]
    rw [hdrain]
    rfl
  · rw [hfirst]
    rw [hdrain]
    rfl
  · rw [hfirst]
    rw [hdrain]
    rfl
  · rw [show runAllEvents [ItemSpec.exits l0 0, ItemSpec.exits l1 0, x2] 2 none =
      (runFrom 3 none 2 [x2]).1 ++ [Event.finished (runFrom 3 none 2 [x2]).2] from rfl]
    rw [List.filterMap_append]
    rw [filterMap_progressOf_runFrom_single 3 2 x2]
    rfl


/-- C2 counterexample: in the concrete failing run (item 0 exits 0, item 1
exits 1, item 2 would succeed) the resume start index after draining is not
1 — the failure does not set the interrupted flag, so
`get_resume_start_index` falls back to 0. -/
theorem claim_C2_counterexample :
    (process_log_queue { last_completed_index := -1, was_interrupted := false }
        false
        (runAllEvents [ItemSpec.exits [] 0, ItemSpec.exits [] 1, ItemSpec.exits [] 0]
          0 none)).get_resume_start_index ≠ 1 := by
  decide

/-- C2 amended: for a run whose item at index 1 exits non-zero (item 0
exiting 0), the batch reports `finished(false)` and item 2 is never
attempted (the progress events are exactly `[0, 1]`), but the resume start
index afterwards is 0, not 1: no interrupt was observed, so the interrupted
flag stays clear and `get_resume_start_index` returns 0 (the stored
last-completed index is in fact 1, because `progress(i)` is emitted before
item `i` starts). -/
theorem claim_C2_amended (l0 l1 : List String) (c : Nat) (x2 : ItemSpec)
    (hc : ¬c = 0) :
    (runAllEvents [ItemSpec.exits l0 0, ItemSpec.exits l1 c, x2] 0 none).filter
        isFinishedEvt = [Event.finished false] ∧
    List.filterMap progressOf
        (runAllEvents [ItemSpec.exits l0 0, ItemSpec.exits l1 c, x2] 0 none) =
      [0, 1] ∧
    (process_log_queue { last_completed_index := -1, was_interrupted := false }
        false
        (runAllEvents [ItemSpec.exits l0 0, ItemSpec.exits l1 c, x2]
          0 none)).get_resume_start_index = 0 := by
  have h0 : (execSingle 3 0 l0 0 none).2 = true := by
    rw [execSingle_snd_none 3 0 l0 0 none rfl]
    rfl
  have h1 : (execSingle 3 1 l1 c none).2 = false := by
    rw [execSingle_snd_none 3 1 l1 c none rfl]
    simp [hc]
  have htr : runAllEvents [ItemSpec.exits l0 0, ItemSpec.exits l1 c, x2] 0 none =
      Event.progress 0 3 ::
        ((execSingle 3 0 l0 0 none).1 ++
          (Event.progress 1 3 ::
            ((execSingle 3 1 l1 c none).1 ++
              [Event.error "Execution failed. Stopping."]))) ++
        [Event.finished false] := by
    rw [show runAllEvents [ItemSpec.exits l0 0, ItemSpec.exits l1 c, x2] 0 none =
        (runFrom 3 none 0 [ItemSpec.exits l0 0, ItemSpec.exits l1 c, x2]).1 ++
          [Event.finished (runFrom 3 none 0
            [ItemSpec.exits l0 0, ItemSpec.exits l1 c, x2]).2] from rfl]
    rw [runFrom_cons_exits_ok 3 [ItemSpec.exits l1 c, x2] (by simp) h0]
    rw [runFrom_cons_exits_stop 3 [x2] (by simp) h1]
    simp [isDuringAt]
  refine ⟨?_, ?_, ?_⟩
  · rw [runAll_filter_finished]
    have hs : runAllSuccess [ItemSpec.exits l0 0, ItemSpec.exits l1 c, x2] 0 none
        = false := by
      rw [runAllSuccess_eq]
      simp [itemOk, hc]
    rw [hs]
  · rw [htr]
    simp [List.filterMap_cons, List.filterMap_append, progressOf,
      filterMap_progressOf_execSingle]
  · rw [htr]
    rw [List.cons_append, process_cons_progress, List.append_assoc,
      process_execSingle_block, List.cons_append, process_cons_progress,
      List.append_assoc, process_execSingle_block, List.singleton_append,
      process_cons_error, process_cons_finished]
    rfl

/-- Witness for the amended C2 at concrete inputs. -/
theorem claim_C2_amended_witness :
    (runAllEvents [ItemSpec.exits [] 0, ItemSpec.exits [] 1, ItemSpec.exits [] 0]
        0 none).filter isFinishedEvt = [Event.finished false] ∧
    List.filterMap progressOf
        (runAllEvents [ItemSpec.exits [] 0, ItemSpec.exits [] 1, ItemSpec.exits [] 0]
          0 none) = [0, 1] ∧
    (process_log_queue { last_completed_index := -1, was_interrupted := false }
        false
        (runAllEvents [ItemSpec.exits [] 0, ItemSpec.exits [] 1, ItemSpec.exits [] 0]
          0 none)).get_resume_start_index = 0 :=
  claim_C2_amended [] [] 1 (ItemSpec.exits [] 0) (by decide)

theorem filterMap_progressOf_runFrom_ok (total : Nat) :
    ∀ (l : List ItemSpec) (i : Nat), l.all itemOk = true →
      List.filterMap progressOf (runFrom total none i l).1 =
        List.range' i l.length := by
  intro l
  induction l with
  | nil => intro i _; simp [runFrom]
  | cons spec rest ih =>
      intro i hall
      simp only [List.all_cons, Bool.and_eq_true] at hall
      obtain ⟨hok, hrest⟩ := hall
      have hb : ¬(none : Option InterruptPoint) =
          some (InterruptPoint.beforeItem i) := by simp
      cases spec with
      | missing =>
          rw [runFrom_cons_missing total rest hb]
          simp [List.filterMap_cons, progressOf, ih (i + 1) hrest, List.range']
      | exits lines code =>
          have hc : (code == 0) = true := by simpa [itemOk] using hok
          have h2 : (execSingle total i lines code none).2 = true := by
            rw [execSingle_snd_none total i lines code none rfl, hc]
          rw [runFrom_cons_exits_ok total rest hb h2]
          simp [List.filterMap_cons, List.filterMap_append, progressOf,
            filterMap_progressOf_execSingle, ih (i + 1) hrest, List.range']

theorem execSingle_ok_no_missing_error (total i : Nat) (lines : List String)
    (code : Nat) (hc : (code == 0) = true) :
    ∀ e ∈ (execSingle total i lines code none).1, isMissingErrorEvt e = false := by
  intro e he
  simp only [execSingle, isDuringAt, hc, eq_self_iff_true, if_true] at he
  simp only [List.mem_cons, List.mem_append, List.mem_singleton,
    List.not_mem_nil, or_false] at he
  rcases he with rfl | he | rfl
  · rfl
  · obtain ⟨l, _, hl⟩ := List.mem_flatMap.mp he
    unfold lineEvents at hl
    split at hl
    · simp at hl
    · simp at hl
      subst hl
      rfl
  · rfl

theorem filter_missingError_runFrom_ok (total : Nat) :
    ∀ (l : List ItemSpec) (i : Nat), l.all itemOk = true →
      ((runFrom total none i l).1.filter isMissingErrorEvt).length =
        (l.filter ItemSpec.isMissingB).length := by
  intro l
  induction l with
  | nil => intro i _; simp [runFrom]
  | cons spec rest ih =>
      intro i hall
      simp only [List.all_cons, Bool.and_eq_true] at hall
      obtain ⟨hok, hrest⟩ := hall
      have hb : ¬(none : Option InterruptPoint) =
          some (InterruptPoint.beforeItem i) := by simp
      cases spec with
      | missing =>
          rw [runFrom_cons_missing total rest hb]
          simp [List.filter_cons, isMissingErrorEvt, ih (i + 1) hrest,
            ItemSpec.isMissingB]
      | exits lines code =>
          have hc : (code == 0) = true := by simpa [itemOk] using hok
          have h2 : (execSingle total i lines code none).2 = true := by
            rw [execSingle_snd_none total i lines code none rfl, hc]
          rw [runFrom_cons_exits_ok total rest hb h2]
          have hblock : ((execSingle total i lines code none).1.filter
              isMissingErrorEvt) = [] := by
            rw [List.filter_eq_nil_iff]
            intro e he
            simp [execSingle_ok_no_missing_error total i lines code hc e he]
          simp [List.filter_cons, List.filter_append, hblock, isMissingErrorEvt,
            ih (i + 1) hrest, ItemSpec.isMissingB]

/-- C7 counterexample: for a single missing source the runner emits no
`log(warning, ...)` event at all — the skip notice is an `error` event — even
though the run does finish with `finished(true)`. -/
theorem claim_C7_counterexample :
    (runAllEvents [ItemSpec.missing] 0 none).filter isWarnLogEvt = [] ∧
    (runAllEvents [ItemSpec.missing] 0 none).filter isFinishedEvt =
      [Event.finished true] := by
  decide

/-- C7 amended: for every item whose source does not exist the runner emits
an `error` event (not a warning-level log) and skips to the next item
without counting it as success or failure: in a run whose attempted range
holds only missing or zero-exit items, the run still attempts every index of
the range (`progress` events cover the full range), emits exactly one skip
error per missing item, and finishes with `finished(true)`. -/
theorem claim_C7_amended (items : List ItemSpec) (start : Nat)
    (h : (items.drop start).all itemOk = true) :
    (runAllEvents items start none).filter isFinishedEvt =
      [Event.finished true] ∧
    List.filterMap progressOf (runAllEvents items start none) =
      List.range' start (items.length - start) ∧
    ((runAllEvents items start none).filter isMissingErrorEvt).length =
      ((items.drop start).filter ItemSpec.isMissingB).length := by
  have hsplit : runAllEvents items start none =
      (runFrom items.length none start (items.drop start)).1 ++
        [Event.finished (runFrom items.length none start (items.drop start)).2] := rfl
  refine ⟨?_, ?_, ?_⟩
  · rw [runAll_filter_finished]
    have hs : runAllSuccess items start none = true := by
      rw [runAllSuccess_eq]
      simp [h, effectiveInterrupt]
    rw [hs]
  · rw [hsplit, List.filterMap_append,
      filterMap_progressOf_runFrom_ok items.length (items.drop start) start h]
    simp [progressOf, List.length_drop]
  · rw [hsplit, List.filter_append,
      show List.filter isMissingErrorEvt
        [Event.finished (runFrom items.length none start (items.drop start)).2]
        = [] from rfl,
      List.append_nil]
    exact filter_missingError_runFrom_ok items.length (items.drop start) start h

/-- Witness for the amended C7: sources 0 and 2 succeed, source 1 is
missing. -/
theorem claim_C7_amended_witness :
    (runAllEvents [ItemSpec.exits [] 0, ItemSpec.missing, ItemSpec.exits [] 0]
        0 none).filter isFinishedEvt = [Event.finished true] ∧
    List.filterMap progressOf
        (runAllEvents [ItemSpec.exits [] 0, ItemSpec.missing, ItemSpec.exits [] 0]
          0 none) =
      List.range' 0
        ([ItemSpec.exits [] 0, ItemSpec.missing, ItemSpec.exits [] 0].length - 0) ∧
    ((runAllEvents [ItemSpec.exits [] 0, ItemSpec.missing, ItemSpec.exits [] 0]
        0 none).filter isMissingErrorEvt).length =
      (([ItemSpec.exits [] 0, ItemSpec.missing, ItemSpec.exits [] 0].drop 0).filter
        ItemSpec.isMissingB).length :=
  claim_C7_amended [ItemSpec.exits [] 0, ItemSpec.missing, ItemSpec.exits [] 0] 0
    (by decide)

/-- Witness for C8 at a concrete mapping with `archive` enabled. -/
theorem claim_C8_build_command_witness :
    build_command [("archive", true)] = build_command [("archive", true)] ∧
      (build_command [("archive", true)]).Nodup ∧
      (getOpt [("archive", true)] "archive" = true →
        "-pgo" ∉ build_command [("archive", true)]) :=
  claim_C8_build_command [("archive", true)] [("archive", true)] (fun _ => rfl)

end Copier
